import Mathlib

/-!
Formal model of the L-System renderer (`main.py`).

The Python program expands a seed symbol sequence through substitution
rules and interprets the result as turtle-graphics commands, drawing
lines whose color follows a gradient indexed by the draw counter.

Modelling choices:
* Python floats are idealised as real numbers; the gradient parameter
  (always a ratio `draws / total_draws` of naturals, or an endpoint
  test value) is modelled as a rational so the gradient is computable.
* Python `int()` truncation toward zero is `int_trunc`.
* The `Cursor` object has reference semantics in Python:
  `saved_cursors.append(self.cursor)` stores a reference, and in-place
  mutation of the live cursor is visible through every stored
  reference.  The interpreter state therefore carries an explicit
  heap `Nat → Cursor` together with natural-number references; the
  position stack is a stack of references, exactly as in the source.
* Exceptions (`IndexError` from `list.pop()` on an empty list,
  `ZeroDivisionError` from `draws / total_draws` with zero total)
  are modelled by an `err` field that freezes the state, matching the
  abort-the-run behaviour of an uncaught Python exception.
* Canvas calls `ImageDraw.line(...)` are modelled as an event list:
  each event records the endpoints, color, width, and the rational
  argument that was passed to the gradient.
-/

inductive Command where
  | PENDOWN
  | PENUP
  | MOVEFORWARD
  | ROTATECCW
  | ROTATECW
  | STOREPOS
  | GOTOPOS
  | NOACTION
  deriving DecidableEq, Repr

/-- Type `NamedCommand = tuple[str, Command]` from the source; the display
name is a single character. -/
abbrev NamedCommand := Char × Command

/-- RGB triple; Python ints. -/
abbrev RGB := Int × Int × Int

namespace LSystem

/-- Helper `lerp` from `build_color_gradient`: linear interpolation from a to b. -/
def lerp (a b t : ℚ) : ℚ := a + t * (b - a)

/-- Helper `scale_t` from `build_color_gradient`: scales t from `[t_min, t_max]`
to `[0, 1]`. -/
def scale_t (t_min t_max t : ℚ) : ℚ := (t - t_min) / (t_max - t_min)

/-- Python `int(...)` applied to a float: truncation toward zero. -/
def int_trunc (q : ℚ) : ℤ := if 0 ≤ q then ⌊q⌋ else ⌈q⌉

/-- The inner closure `gradient` of `LSystem.build_color_gradient`:
single color is returned unconditionally; otherwise `t` is clipped to
`[0, 1]`, mapped to a segment `[i, j]` of the `len(colors) - 1`
segments, returned exactly at segment boundaries (`i = j`), and
channel-wise linearly interpolated (then truncated) inside a segment. -/
def gradient (colors : List RGB) (t : ℚ) : RGB :=
  if colors.length = 1 then colors.getD 0 (0, 0, 0)
  else
    let t2 : ℚ := max (min t 1) 0
    let n : ℕ := colors.length - 1
    let x : ℚ := t2 * (n : ℚ)
    let i : ℤ := ⌊x⌋
    let j : ℤ := ⌈x⌉
    if i = j then colors.getD i.toNat (0, 0, 0)
    else
      let t_min : ℚ := (i : ℚ) / (n : ℚ)
      let t_max : ℚ := (j : ℚ) / (n : ℚ)
      let scaled_t : ℚ := scale_t t_min t_max t2
      let c1 := colors.getD i.toNat (0, 0, 0)
      let c2 := colors.getD j.toNat (0, 0, 0)
      (int_trunc (lerp (c1.1 : ℚ) (c2.1 : ℚ) scaled_t),
       int_trunc (lerp (c1.2.1 : ℚ) (c2.2.1 : ℚ) scaled_t),
       int_trunc (lerp (c1.2.2 : ℚ) (c2.2.2 : ℚ) scaled_t))

/-- The validation `0 <= r <= 0xFF and 0 <= g <= 0xFF and 0 <= b <= 0xFF`
performed by `build_color_gradient` on each color. -/
def validColor (c : RGB) : Bool :=
  0 ≤ c.1 && c.1 ≤ 255 && 0 ≤ c.2.1 && c.2.1 ≤ 255 && 0 ≤ c.2.2 && c.2.2 ≤ 255

/-- Method `LSystem.build_color_gradient`: raises (here: `none`) on an empty
color list or an invalid RGB triple, otherwise returns the gradient
closure over the color list. -/
def build_color_gradient (colors : List RGB) : Option (ℚ → RGB) :=
  if colors.isEmpty then none
  else if colors.all validColor then some (gradient colors)
  else none

/-- The rules dict `dict[NamedCommand, list[NamedCommand]]`, modelled as
a finite partial map. -/
abbrev Rules := NamedCommand → Option (List NamedCommand)

/-- Method `LSystem.iterate_system_value`: one rewriting generation.  The loop
builds `new_system_value` by extending with the rule right-hand side
when `named_command in self.rules`, else appending the symbol itself. -/
def iterate_system_value (rules : Rules) (system_value : List NamedCommand) :
    List NamedCommand :=
  system_value.foldl
    (fun new_system_value named_command =>
      match rules named_command with
      | some rhs => new_system_value ++ rhs
      | none => new_system_value ++ [named_command])
    []

/-- The `for _ in range(n): self.iterate_system_value()` loop of
`LSystem.iterate_n_then_run`: the n-fold rewriting iteration. -/
def expand_n (seed : List NamedCommand) (rules : Rules) : ℕ → List NamedCommand
  | 0 => seed
  | n + 1 => iterate_system_value rules (expand_n seed rules n)

/-- The loop body state of `LSystem.count_draws`: locals
`pen_is_down` and `draws`, updated per command. -/
def countDrawsLoop : Bool → ℕ → List NamedCommand → ℕ
  | _, draws, [] => draws
  | pen_is_down, draws, nc :: rest =>
    match nc.2 with
    | Command.PENDOWN => countDrawsLoop true draws rest
    | Command.PENUP => countDrawsLoop false draws rest
    | Command.MOVEFORWARD =>
      countDrawsLoop pen_is_down (if pen_is_down then draws + 1 else draws) rest
    | Command.GOTOPOS =>
      countDrawsLoop pen_is_down (if pen_is_down then draws + 1 else draws) rest
    | _ => countDrawsLoop pen_is_down draws rest

/-- Method `LSystem.count_draws`: dry pass counting the draw commands the
system value will create, seeded (in the source) from
`self.cursor.is_down`, passed here explicitly. -/
def count_draws (system_value : List NamedCommand) (pen_is_down : Bool) : ℕ :=
  countDrawsLoop pen_is_down 0 system_value

/-- Spec-side pen tracking: how a locally tracked pen state evolves past
one command (set by PenDown/PenUp, untouched by everything else). -/
def penUpdate (pen : Bool) (nc : NamedCommand) : Bool :=
  match nc.2 with
  | Command.PENDOWN => true
  | Command.PENUP => false
  | _ => pen

/-- Spec-side annotation: each command paired with the tracked pen state
in force when it is encountered. -/
def penStates (pen : Bool) : List NamedCommand → List (NamedCommand × Bool)
  | [] => []
  | nc :: rest => (nc, pen) :: penStates (penUpdate pen nc) rest

/-- Whether a command is a drawing command (MoveForward or
GotoStoredPosition). -/
def isDrawCmd (nc : NamedCommand) : Bool :=
  match nc.2 with
  | Command.MOVEFORWARD => true
  | Command.GOTOPOS => true
  | _ => false

/-- Spec-side draw count: the number of MoveForward / GotoStoredPosition
commands encountered while the tracked pen state is down. -/
def count_draws_spec (system_value : List NamedCommand) (pen : Bool) : ℕ :=
  (penStates pen system_value).countP (fun p => isDrawCmd p.1 && p.2)

end LSystem

/-- The `Cursor` dataclass: position, heading (radians, 0 = facing
right), pen state. -/
structure Cursor where
  x : ℝ
  y : ℝ
  angle : ℝ
  is_down : Bool

/-- Method `Cursor.move_forward`: moves the cursor forward in the direction it
is facing; `y` is decremented because the canvas y-axis points down. -/
noncomputable def Cursor.move_forward (c : Cursor) (movement_length : ℝ) : Cursor :=
  { c with
    x := c.x + movement_length * Real.cos c.angle
    y := c.y - movement_length * Real.sin c.angle }

/-- Method `Cursor.rotate_ccw`. -/
def Cursor.rotate_ccw (c : Cursor) (radians : ℝ) : Cursor :=
  { c with angle := c.angle + radians }

/-- Method `Cursor.rotate_cw`. -/
def Cursor.rotate_cw (c : Cursor) (radians : ℝ) : Cursor :=
  { c with angle := c.angle - radians }

namespace LSystem

/-- The configuration fields of the `LSystem` object that
`run_system_value` reads. -/
structure Config where
  movement_length : ℝ
  rotate_angle : ℝ
  pen_thickness : ℤ
  pen_colors : List RGB

/-- One `ImageDraw.line` call issued by `run_system_value`: endpoints,
fill color, width, and the rational argument passed to the gradient. -/
structure DrawEvent where
  from_x : ℝ
  from_y : ℝ
  to_x : ℝ
  to_y : ℝ
  color : RGB
  width : ℤ
  tArg : ℚ

/-- The two uncaught Python exceptions `run_system_value` can raise:
`IndexError` from popping an empty `saved_cursors` list, and
`ZeroDivisionError` from `draws / total_draws` when the total is 0. -/
inductive RunError where
  | stackUnderflow
  | divByZero
  deriving DecidableEq, Repr

/-- Interpreter state: a heap of cursor objects (Python reference
semantics), the reference held in `self.cursor`, the stack of
references `self.saved_cursors`, the local `draws` counter, the canvas
call log, and the exception flag. -/
structure RunState where
  heap : ℕ → Cursor
  cursorRef : ℕ
  savedRefs : List ℕ
  draws : ℕ
  events : List DrawEvent
  err : Option RunError

/-- The cursor object currently referenced by `self.cursor`. -/
def RunState.live (s : RunState) : Cursor := s.heap s.cursorRef

/-- In-place mutation of the object `self.cursor` refers to. -/
def RunState.setLive (s : RunState) (c : Cursor) : RunState :=
  { s with heap := Function.update s.heap s.cursorRef c }

/-- Fresh interpreter state around one cursor object, as built by
`LSystem.__init__` (empty `saved_cursors`, no draws yet). -/
def mkState (c : Cursor) : RunState :=
  { heap := fun _ => c
    cursorRef := 0
    savedRefs := []
    draws := 0
    events := []
    err := none }

/-- The nested `draw` helper of `run_system_value`: the canvas call it
issues, with the color looked up at `draws / total_draws` along the
gradient.  The `total_draws = 0` division error is checked at the call
sites in `step`. -/
def draw (cfg : Config) (total_draws draws : ℕ)
    (from_x from_y to_x to_y : ℝ) : DrawEvent :=
  { from_x := from_x, from_y := from_y, to_x := to_x, to_y := to_y
    color := gradient cfg.pen_colors ((draws : ℚ) / (total_draws : ℚ))
    width := cfg.pen_thickness
    tArg := (draws : ℚ) / (total_draws : ℚ) }

/-- One iteration of the `for _, command in self.system_value` loop of
`run_system_value`.  A set `err` freezes the state (the Python
exception aborts the loop). -/
noncomputable def step (cfg : Config) (total_draws : ℕ) (s : RunState)
    (nc : NamedCommand) : RunState :=
  if s.err.isSome then s else
  match nc.2 with
  | Command.PENDOWN => s.setLive { s.live with is_down := true }
  | Command.PENUP => s.setLive { s.live with is_down := false }
  | Command.MOVEFORWARD =>
    let cur := s.live
    let cur2 := cur.move_forward cfg.movement_length
    let s1 := s.setLive cur2
    if cur2.is_down then
      if total_draws = 0 then { s1 with err := some RunError.divByZero }
      else
        { s1 with
          events := s1.events ++ [draw cfg total_draws s.draws cur.x cur.y cur2.x cur2.y]
          draws := s.draws + 1 }
    else s1
  | Command.ROTATECCW => s.setLive (s.live.rotate_ccw cfg.rotate_angle)
  | Command.ROTATECW => s.setLive (s.live.rotate_cw cfg.rotate_angle)
  | Command.STOREPOS =>
    { s with savedRefs := s.cursorRef :: s.savedRefs }
  | Command.GOTOPOS =>
    match s.savedRefs with
    | [] => { s with err := some RunError.stackUnderflow }
    | r :: rest =>
      let cur := s.live
      let saved := s.heap r
      if cur.is_down then
        if total_draws = 0 then
          { s with savedRefs := rest, err := some RunError.divByZero }
        else
          { s with
            savedRefs := rest
            heap := Function.update s.heap r { saved with is_down := cur.is_down }
            cursorRef := r
            events := s.events ++ [draw cfg total_draws s.draws cur.x cur.y saved.x saved.y]
            draws := s.draws + 1 }
      else
        { s with
          savedRefs := rest
          heap := Function.update s.heap r { saved with is_down := cur.is_down }
          cursorRef := r }
  | Command.NOACTION => s

/-- Method `LSystem.run_system_value`: computes `total_draws` from the current
cursor's pen state, then folds the loop body over the system value. -/
noncomputable def run_system_value (cfg : Config) (system_value : List NamedCommand)
    (s : RunState) : RunState :=
  system_value.foldl (step cfg (count_draws system_value s.live.is_down)) s

/-- Invariant carried through the interpreter pass: the `draws` counter
equals the number of canvas calls issued so far, and the k-th call's
gradient argument is `k / total`. -/
def drawInv (total : ℕ) (s : RunState) : Prop :=
  s.draws = s.events.length ∧
  s.events.map DrawEvent.tArg
    = (List.range s.events.length).map (fun k : ℕ => (k : ℚ) / (total : ℚ))

/-- The interpreter state reached after processing the prefix `p` of a
run of `run_system_value` on the full sequence `seq` (the `total_draws`
is the one computed for the full sequence at the start of the run). -/
noncomputable def runUpTo (cfg : Config) (seq : List NamedCommand) (c : Cursor)
    (p : List NamedCommand) : RunState :=
  List.foldl (step cfg (count_draws seq c.is_down)) (mkState c) p

end LSystem

/-! ## Rewriting lemmas -/

namespace LSystem

theorem iterate_foldl_eq_flatten (rules : Rules) :
    ∀ (seq : List NamedCommand) (acc : List NamedCommand),
      seq.foldl
        (fun new_system_value named_command =>
          match rules named_command with
          | some rhs => new_system_value ++ rhs
          | none => new_system_value ++ [named_command]) acc
      = acc ++ (seq.map (fun nc => (rules nc).getD [nc])).flatten := by
  intro seq
  induction seq with
  | nil => intro acc; simp
  | cons nc rest ih =>
    intro acc
    rw [List.foldl_cons]
    cases h : rules nc with
    | none => rw [ih]; simp [h]
    | some rhs => rw [ih]; simp [h]

/-- Claim C5: one rewriting step produces the in-order concatenation,
over the input symbols, of the rule right-hand side when a rule exists
for that exact symbol and the single symbol itself otherwise.  (The
model is pure, so the rule map and input sequence are unchanged and the
result is a fresh list by construction.) -/
theorem claim_C5 (rules : Rules) (seq : List NamedCommand) :
    iterate_system_value rules seq
      = (seq.map (fun nc => (rules nc).getD [nc])).flatten := by
  have h := iterate_foldl_eq_flatten rules seq []
  simpa [iterate_system_value] using h

/-- Claim C6: `expand_n` is the n-fold iteration of one rewriting step:
zero generations return the seed, and generations compose additively. -/
theorem claim_C6 (seed : List NamedCommand) (rules : Rules) :
    expand_n seed rules 0 = seed ∧
    ∀ a b : ℕ,
      expand_n seed rules (a + b) = expand_n (expand_n seed rules a) rules b := by
  refine ⟨rfl, fun a b => ?_⟩
  induction b with
  | zero => rfl
  | succ b ih => rw [Nat.add_succ, expand_n, expand_n, ih]

/-! ## Draw-count lemmas -/

theorem countDrawsLoop_shift :
    ∀ (seq : List NamedCommand) (pen : Bool) (d : ℕ),
      countDrawsLoop pen d seq = d + countDrawsLoop pen 0 seq := by
  intro seq
  induction seq with
  | nil => intro pen d; simp [countDrawsLoop]
  | cons nc rest ih =>
    intro pen d
    obtain ⟨nm, cmd⟩ := nc
    have hT1 := ih true (d + 1)
    have hT0 := ih true 1
    have hTd := ih true d
    have hF1 := ih false (d + 1)
    have hF0 := ih false 1
    have hFd := ih false d
    cases cmd <;> cases pen <;> simp [countDrawsLoop] <;> omega

theorem count_draws_cons (nc : NamedCommand) (rest : List NamedCommand) (pen : Bool) :
    count_draws (nc :: rest) pen
      = (if isDrawCmd nc && pen then 1 else 0) + count_draws rest (penUpdate pen nc) := by
  obtain ⟨nm, cmd⟩ := nc
  have hT0 := countDrawsLoop_shift rest true 1
  have hF0 := countDrawsLoop_shift rest false 1
  cases cmd <;> cases pen <;>
    simp [count_draws, countDrawsLoop, isDrawCmd, penUpdate] <;> omega

/-- Claim C3: `count_draws` counts exactly the MoveForward and
GotoStoredPosition commands seen while the locally tracked pen state
(seeded from the given pen state, toggled only by PenDown/PenUp) is
down; on `[PenDown, MoveForward, PenUp, MoveForward, PenDown,
MoveForward]` starting pen-up it returns 2. -/
theorem claim_C3 :
    (∀ (seq : List NamedCommand) (pen : Bool),
        count_draws seq pen = count_draws_spec seq pen) ∧
    count_draws
      [('D', Command.PENDOWN), ('F', Command.MOVEFORWARD), ('U', Command.PENUP),
       ('F', Command.MOVEFORWARD), ('D', Command.PENDOWN), ('F', Command.MOVEFORWARD)]
      false = 2 := by
  constructor
  · intro seq
    induction seq with
    | nil => intro pen; rfl
    | cons nc rest ih =>
      intro pen
      rw [count_draws_cons]
      simp only [count_draws_spec, penStates, List.countP_cons, ih]
      omega
  · rfl

end LSystem

/-! ## Cursor claims -/

/-- Claim C7: `move_forward` updates `x += len * cos(angle)`,
`y -= len * sin(angle)` and leaves the heading and pen state alone; at
angle 0 a forward move of 10 ends at (10, 0), and at angle π/2 it ends
at (0, -10): counter-clockwise rotation moves the cursor up, i.e. y
decreases. -/
theorem claim_C7 :
    (∀ (c : Cursor) (len : ℝ),
        c.move_forward len
          = ⟨c.x + len * Real.cos c.angle, c.y - len * Real.sin c.angle,
             c.angle, c.is_down⟩) ∧
    Cursor.move_forward ⟨0, 0, 0, false⟩ 10 = ⟨10, 0, 0, false⟩ ∧
    Cursor.move_forward ⟨0, 0, Real.pi / 2, false⟩ 10 = ⟨0, -10, Real.pi / 2, false⟩ := by
  refine ⟨fun c len => rfl, ?_, ?_⟩
  · simp [Cursor.move_forward]
  · simp [Cursor.move_forward, Real.cos_pi_div_two, Real.sin_pi_div_two]

/-! ## Gradient claims -/

namespace LSystem

/-- Claim C8: with exactly one (valid) color stop, the built gradient is
the constant function returning that color, for every argument. -/
theorem claim_C8 (c : RGB) (h : validColor c = true) :
    build_color_gradient [c] = some (fun _ => c) := by
  have hg : gradient [c] = fun _ => c := by
    funext t
    simp [gradient]
  simp [build_color_gradient, h, hg]

theorem claim_C8_witness :
    validColor (255, 255, 255) = true ∧
    build_color_gradient [(255, 255, 255)] = some (fun _ => (255, 255, 255)) :=
  ⟨by decide, claim_C8 (255, 255, 255) (by decide)⟩

/-- Claim C9: with two or more stops the gradient clamps its argument to
[0, 1] before interpolating; with stops `[BLACK, WHITE]` it returns
(127, 127, 127) at t = 1/2 (channel-wise linear interpolation truncated
to an integer), BLACK at every t ≤ 0 and WHITE at every t ≥ 1. -/
theorem claim_C9 :
    (∀ (colors : List RGB) (t : ℚ), 2 ≤ colors.length →
        gradient colors t = gradient colors (max (min t 1) 0)) ∧
    gradient [(0, 0, 0), (255, 255, 255)] (1 / 2) = (127, 127, 127) ∧
    (∀ t : ℚ, t ≤ 0 → gradient [(0, 0, 0), (255, 255, 255)] t = (0, 0, 0)) ∧
    (∀ t : ℚ, 1 ≤ t → gradient [(0, 0, 0), (255, 255, 255)] t = (255, 255, 255)) := by
  have hclamp : ∀ t : ℚ, max (min (max (min t 1) 0) 1) 0 = max (min t 1) 0 := by
    intro t
    have h0 : (0 : ℚ) ≤ max (min t 1) 0 := le_max_right _ _
    have h1 : max (min t 1) 0 ≤ 1 := max_le (min_le_right t 1) zero_le_one
    rw [min_eq_left h1, max_eq_left h0]
  refine ⟨?_, ?_, ?_, ?_⟩
  · intro colors t hlen
    simp only [gradient, hclamp]
  · have hmin : min (1 / 2 : ℚ) 1 = 1 / 2 := min_eq_left (by norm_num)
    have hmax : max (1 / 2 : ℚ) 0 = 1 / 2 := max_eq_left (by norm_num)
    have hf : ⌊(1 / 2 : ℚ)⌋ = 0 := by norm_num
    have hc : ⌈(1 / 2 : ℚ)⌉ = 1 := by rw [Int.ceil_eq_iff] ; norm_num
    simp only [gradient, hmin, hmax]
    norm_num [hf, hc, scale_t, lerp, int_trunc]
  · intro t ht
    have hmin : min t 1 = t := min_eq_left (ht.trans zero_le_one)
    have hmax : max t 0 = 0 := max_eq_right ht
    simp only [gradient, hmin, hmax]
    norm_num
  · intro t ht
    have hmin : min t 1 = 1 := min_eq_right ht
    have hmax : max (1 : ℚ) 0 = 1 := max_eq_left zero_le_one
    simp only [gradient, hmin, hmax]
    norm_num

theorem claim_C9_witness :
    gradient [(0, 0, 0), (255, 255, 255)] 5
      = gradient [(0, 0, 0), (255, 255, 255)] (max (min 5 1) 0) ∧
    gradient [(0, 0, 0), (255, 255, 255)] (-1) = (0, 0, 0) ∧
    gradient [(0, 0, 0), (255, 255, 255)] 2 = (255, 255, 255) :=
  ⟨claim_C9.1 [(0, 0, 0), (255, 255, 255)] 5 (by norm_num),
   claim_C9.2.2.1 (-1) (by norm_num),
   claim_C9.2.2.2 2 (by norm_num)⟩

end LSystem

/-! ## Interpreter basics -/

theorem Cursor.move_forward_is_down (c : Cursor) (l : ℝ) :
    (c.move_forward l).is_down = c.is_down := rfl

theorem Cursor.rotate_ccw_is_down (c : Cursor) (r : ℝ) :
    (c.rotate_ccw r).is_down = c.is_down := rfl

theorem Cursor.rotate_cw_is_down (c : Cursor) (r : ℝ) :
    (c.rotate_cw r).is_down = c.is_down := rfl

attribute [simp] Cursor.move_forward_is_down Cursor.rotate_ccw_is_down
  Cursor.rotate_cw_is_down

namespace LSystem

theorem RunState.setLive_err (s : RunState) (c : Cursor) :
    (s.setLive c).err = s.err := rfl

theorem RunState.setLive_draws (s : RunState) (c : Cursor) :
    (s.setLive c).draws = s.draws := rfl

theorem RunState.setLive_events (s : RunState) (c : Cursor) :
    (s.setLive c).events = s.events := rfl

theorem RunState.setLive_savedRefs (s : RunState) (c : Cursor) :
    (s.setLive c).savedRefs = s.savedRefs := rfl

theorem RunState.live_setLive (s : RunState) (c : Cursor) :
    (s.setLive c).live = c := by
  simp [RunState.live, RunState.setLive]

attribute [simp] RunState.setLive_err RunState.setLive_draws
  RunState.setLive_events RunState.setLive_savedRefs RunState.live_setLive

theorem draw_tArg (cfg : Config) (total draws : ℕ) (a b c d : ℝ) :
    (draw cfg total draws a b c d).tArg = (draws : ℚ) / (total : ℚ) := rfl

attribute [simp] draw_tArg

theorem step_frozen (cfg : Config) (total : ℕ) (s : RunState) (nc : NamedCommand)
    (h : s.err.isSome) : step cfg total s nc = s := by
  simp [step, h]

theorem foldl_step_frozen (cfg : Config) (total : ℕ) :
    ∀ (seq : List NamedCommand) (s : RunState), s.err.isSome →
      List.foldl (step cfg total) s seq = s := by
  intro seq
  induction seq with
  | nil => intro s _; rfl
  | cons nc rest ih =>
    intro s h
    rw [List.foldl_cons, step_frozen cfg total s nc h]
    exact ih s h

end LSystem

namespace LSystem

theorem run_aux (cfg : Config) (total : ℕ) :
    ∀ (seq : List NamedCommand) (s : RunState),
      s.err = none →
      total = s.draws + count_draws seq s.live.is_down →
      drawInv total s →
      (List.foldl (step cfg total) s seq).err ≠ some RunError.divByZero ∧
      drawInv total (List.foldl (step cfg total) s seq) ∧
      (List.foldl (step cfg total) s seq).draws ≤ total ∧
      ((List.foldl (step cfg total) s seq).err = none →
        (List.foldl (step cfg total) s seq).draws = total) := by
  intro seq
  induction seq with
  | nil =>
    intro s herr htot hinv
    simp only [List.foldl_nil]
    simp only [count_draws, countDrawsLoop] at htot
    refine ⟨by simp [herr], hinv, by omega, fun _ => by omega⟩
  | cons nc rest ih =>
    intro s herr htot hinv
    obtain ⟨nm, cmd⟩ := nc
    rw [count_draws_cons] at htot
    rw [List.foldl_cons]
    cases cmd with
    | PENDOWN =>
      have hstep : step cfg total s (nm, Command.PENDOWN)
          = s.setLive { s.live with is_down := true } := by
        simp [step, herr]
      rw [hstep]
      apply ih
      · simp [herr]
      · simpa [isDrawCmd, penUpdate] using htot
      · simpa [drawInv] using hinv
    | PENUP =>
      have hstep : step cfg total s (nm, Command.PENUP)
          = s.setLive { s.live with is_down := false } := by
        simp [step, herr]
      rw [hstep]
      apply ih
      · simp [herr]
      · simpa [isDrawCmd, penUpdate] using htot
      · simpa [drawInv] using hinv
    | ROTATECCW =>
      have hstep : step cfg total s (nm, Command.ROTATECCW)
          = s.setLive (s.live.rotate_ccw cfg.rotate_angle) := by
        simp [step, herr]
      rw [hstep]
      apply ih
      · simp [herr]
      · simpa [isDrawCmd, penUpdate] using htot
      · simpa [drawInv] using hinv
    | ROTATECW =>
      have hstep : step cfg total s (nm, Command.ROTATECW)
          = s.setLive (s.live.rotate_cw cfg.rotate_angle) := by
        simp [step, herr]
      rw [hstep]
      apply ih
      · simp [herr]
      · simpa [isDrawCmd, penUpdate] using htot
      · simpa [drawInv] using hinv
    | NOACTION =>
      have hstep : step cfg total s (nm, Command.NOACTION) = s := by
        simp [step, herr]
      rw [hstep]
      apply ih
      · exact herr
      · simpa [isDrawCmd, penUpdate] using htot
      · exact hinv
    | STOREPOS =>
      have hstep : step cfg total s (nm, Command.STOREPOS)
          = { s with savedRefs := s.cursorRef :: s.savedRefs } := by
        simp [step, herr]
      rw [hstep]
      apply ih
      · exact herr
      · simpa [isDrawCmd, penUpdate, RunState.live] using htot
      · simpa [drawInv] using hinv
    | MOVEFORWARD =>
      cases hpen : s.live.is_down with
      | false =>
        have hstep : step cfg total s (nm, Command.MOVEFORWARD)
            = s.setLive (s.live.move_forward cfg.movement_length) := by
          simp [step, herr, hpen]
        rw [hstep]
        apply ih
        · simp [herr]
        · simpa [isDrawCmd, penUpdate, hpen] using htot
        · simpa [drawInv] using hinv
      | true =>
        simp only [isDrawCmd, hpen, Bool.and_true, if_true, penUpdate] at htot
        have htotpos : total ≠ 0 := by omega
        have hpen2 : (s.heap s.cursorRef).is_down = true := hpen
        set s2 := step cfg total s (nm, Command.MOVEFORWARD) with hs2
        have herr2 : s2.err = none := by
          rw [hs2]; simp [step, herr, hpen, htotpos]
        have hdraws2 : s2.draws = s.draws + 1 := by
          rw [hs2]; simp [step, herr, hpen, htotpos]
        have hevents2 : s2.events = s.events ++
            [draw cfg total s.draws s.live.x s.live.y
              (s.live.move_forward cfg.movement_length).x
              (s.live.move_forward cfg.movement_length).y] := by
          rw [hs2]; simp [step, herr, hpen, htotpos]
        have hlive2 : s2.live.is_down = true := by
          rw [hs2]
          simp [step, herr, hpen, htotpos, RunState.live, RunState.setLive,
            Function.update_same, hpen2]
        apply ih
        · exact herr2
        · rw [hdraws2, hlive2]; omega
        · refine ⟨?_, ?_⟩
          · rw [hdraws2, hevents2, List.length_append, hinv.1]; rfl
          · rw [hevents2, List.map_append, hinv.2, List.length_append,
              List.length_singleton, List.range_succ, List.map_append]
            simp [hinv.1]
    | GOTOPOS =>
      cases hsr : s.savedRefs with
      | nil =>
        have hstep : step cfg total s (nm, Command.GOTOPOS)
            = { s with err := some RunError.stackUnderflow } := by
          simp [step, herr, hsr]
        rw [hstep, foldl_step_frozen cfg total rest _ (by simp)]
        refine ⟨by simp, ?_, ?_, by simp⟩
        · simpa [drawInv] using hinv
        · show s.draws ≤ total
          omega
      | cons r rest2 =>
        cases hpen : s.live.is_down with
        | false =>
          set s2 := step cfg total s (nm, Command.GOTOPOS) with hs2
          have herr2 : s2.err = none := by
            rw [hs2]; simp [step, herr, hsr, hpen]
          have hdraws2 : s2.draws = s.draws := by
            rw [hs2]; simp [step, herr, hsr, hpen]
          have hevents2 : s2.events = s.events := by
            rw [hs2]; simp [step, herr, hsr, hpen]
          have hpen2 : (s.heap s.cursorRef).is_down = false := hpen
          have hlive2 : s2.live.is_down = false := by
            rw [hs2]
            simp [step, herr, hsr, hpen, hpen2, RunState.live, Function.update_same]
          apply ih
          · exact herr2
          · rw [hdraws2, hlive2]
            simpa [isDrawCmd, penUpdate, hpen] using htot
          · rw [drawInv, hdraws2, hevents2]
            exact hinv
        | true =>
          simp only [isDrawCmd, hpen, Bool.and_true, if_true, penUpdate] at htot
          have htotpos : total ≠ 0 := by omega
          set s2 := step cfg total s (nm, Command.GOTOPOS) with hs2
          have herr2 : s2.err = none := by
            rw [hs2]; simp [step, herr, hsr, hpen, htotpos]
          have hdraws2 : s2.draws = s.draws + 1 := by
            rw [hs2]; simp [step, herr, hsr, hpen, htotpos]
          have hevents2 : s2.events = s.events ++
              [draw cfg total s.draws s.live.x s.live.y (s.heap r).x (s.heap r).y] := by
            rw [hs2]; simp [step, herr, hsr, hpen, htotpos]
          have hpen2 : (s.heap s.cursorRef).is_down = true := hpen
          have hlive2 : s2.live.is_down = true := by
            rw [hs2]
            simp [step, herr, hsr, hpen, hpen2, htotpos, RunState.live,
              Function.update_same]
          apply ih
          · exact herr2
          · rw [hdraws2, hlive2]; omega
          · refine ⟨?_, ?_⟩
            · rw [hdraws2, hevents2, List.length_append, hinv.1]; rfl
            · rw [hevents2, List.map_append, hinv.2, List.length_append,
                List.length_singleton, List.range_succ, List.map_append]
              simp [hinv.1]

end LSystem

/-! ## Interpreter claims -/

namespace LSystem

/-- Claim C10: when the interpreter runs a sequence to completion, the
number of canvas calls equals the `count_draws` total computed before
the pass, the k-th call's gradient argument is `k / total`, and every
gradient argument lies in `[0, 1)`. -/
theorem claim_C10 (cfg : Config) (seq : List NamedCommand) (c : Cursor)
    (hok : (run_system_value cfg seq (mkState c)).err = none) :
    (run_system_value cfg seq (mkState c)).events.length = count_draws seq c.is_down ∧
    (run_system_value cfg seq (mkState c)).events.map DrawEvent.tArg
      = (List.range (count_draws seq c.is_down)).map
          (fun k : ℕ => (k : ℚ) / (count_draws seq c.is_down : ℚ)) ∧
    ∀ e ∈ (run_system_value cfg seq (mkState c)).events, 0 ≤ e.tArg ∧ e.tArg < 1 := by
  have hrw : run_system_value cfg seq (mkState c)
      = List.foldl (step cfg (count_draws seq c.is_down)) (mkState c) seq := rfl
  have h := run_aux cfg (count_draws seq c.is_down) seq (mkState c) rfl
    (by simp [mkState, RunState.live]) ⟨rfl, by simp [mkState]⟩
  rw [hrw] at hok ⊢
  obtain ⟨-, ⟨hlen, hmap⟩, -, hfin⟩ := h
  have htot := hfin hok
  have hlen2 : (List.foldl (step cfg (count_draws seq c.is_down)) (mkState c) seq).events.length
      = count_draws seq c.is_down := by omega
  refine ⟨hlen2, by rw [hmap, hlen2], ?_⟩
  intro e he
  have hmem : e.tArg ∈ (List.foldl (step cfg (count_draws seq c.is_down))
      (mkState c) seq).events.map DrawEvent.tArg := List.mem_map_of_mem _ he
  rw [hmap] at hmem
  obtain ⟨k, hk, hke⟩ := List.mem_map.1 hmem
  rw [List.mem_range, hlen2] at hk
  have h1 : (k : ℚ) < (count_draws seq c.is_down : ℚ) := by exact_mod_cast hk
  have h2 : (0 : ℚ) < (count_draws seq c.is_down : ℚ) :=
    lt_of_le_of_lt (Nat.cast_nonneg k) h1
  refine ⟨?_, ?_⟩
  · rw [← hke]; positivity
  · rw [← hke]; exact (div_lt_one h2).mpr h1

theorem claim_C10_witness :
    (run_system_value ⟨10, 1, 1, [(0, 0, 0), (255, 255, 255)]⟩
        [('F', Command.MOVEFORWARD)] (mkState ⟨0, 0, 0, true⟩)).events.length
      = count_draws [('F', Command.MOVEFORWARD)] (Cursor.mk 0 0 0 true).is_down :=
  (claim_C10 ⟨10, 1, 1, [(0, 0, 0), (255, 255, 255)]⟩
    [('F', Command.MOVEFORWARD)] ⟨0, 0, 0, true⟩
    (by simp [run_system_value, count_draws, countDrawsLoop, step, mkState,
      RunState.live, RunState.setLive])).1

/-- Claim C4: if the dry pass counts zero eligible draws, the run
issues no canvas calls and never evaluates the gradient with the zero
total: it cannot end in the division-by-zero error. -/
theorem claim_C4 (cfg : Config) (seq : List NamedCommand) (c : Cursor)
    (h0 : count_draws seq c.is_down = 0) :
    (run_system_value cfg seq (mkState c)).err ≠ some RunError.divByZero ∧
    (run_system_value cfg seq (mkState c)).events = [] := by
  have hrw : run_system_value cfg seq (mkState c)
      = List.foldl (step cfg (count_draws seq c.is_down)) (mkState c) seq := rfl
  have h := run_aux cfg (count_draws seq c.is_down) seq (mkState c) rfl
    (by simp [mkState, RunState.live]) ⟨rfl, by simp [mkState]⟩
  rw [hrw]
  obtain ⟨hnd, ⟨hlen, -⟩, hle, -⟩ := h
  refine ⟨hnd, ?_⟩
  have hz : (List.foldl (step cfg (count_draws seq c.is_down))
      (mkState c) seq).events.length = 0 := by omega
  exact List.length_eq_zero.mp hz

theorem claim_C4_witness :
    count_draws [('U', Command.PENUP), ('[', Command.STOREPOS), (']', Command.GOTOPOS)]
        (Cursor.mk 0 0 0 true).is_down = 0 ∧
    (run_system_value ⟨10, 1, 1, [(255, 255, 255)]⟩
        [('U', Command.PENUP), ('[', Command.STOREPOS), (']', Command.GOTOPOS)]
        (mkState ⟨0, 0, 0, true⟩)).err ≠ some RunError.divByZero ∧
    (run_system_value ⟨10, 1, 1, [(255, 255, 255)]⟩
        [('U', Command.PENUP), ('[', Command.STOREPOS), (']', Command.GOTOPOS)]
        (mkState ⟨0, 0, 0, true⟩)).events = [] :=
  ⟨rfl,
   (claim_C4 ⟨10, 1, 1, [(255, 255, 255)]⟩
      [('U', Command.PENUP), ('[', Command.STOREPOS), (']', Command.GOTOPOS)]
      ⟨0, 0, 0, true⟩ rfl).1,
   (claim_C4 ⟨10, 1, 1, [(255, 255, 255)]⟩
      [('U', Command.PENUP), ('[', Command.STOREPOS), (']', Command.GOTOPOS)]
      ⟨0, 0, 0, true⟩ rfl).2⟩

end LSystem

namespace LSystem

/-- Claim C2: whenever a GotoStoredPosition is reached with an empty
position stack (in an error-free run so far), the run fails fast with
the stack-underflow error at that command: the final state is exactly
the state before the command with the error flag set, and the
remaining commands have no further effect. -/
theorem claim_C2 (cfg : Config) (p rest : List NamedCommand) (nm : Char) (c : Cursor)
    (herr : (runUpTo cfg (p ++ (nm, Command.GOTOPOS) :: rest) c p).err = none)
    (hstk : (runUpTo cfg (p ++ (nm, Command.GOTOPOS) :: rest) c p).savedRefs = []) :
    run_system_value cfg (p ++ (nm, Command.GOTOPOS) :: rest) (mkState c)
      = { runUpTo cfg (p ++ (nm, Command.GOTOPOS) :: rest) c p
          with err := some RunError.stackUnderflow } := by
  have hrw : run_system_value cfg (p ++ (nm, Command.GOTOPOS) :: rest) (mkState c)
      = List.foldl (step cfg (count_draws (p ++ (nm, Command.GOTOPOS) :: rest) c.is_down))
          (mkState c) (p ++ (nm, Command.GOTOPOS) :: rest) := rfl
  have hP : runUpTo cfg (p ++ (nm, Command.GOTOPOS) :: rest) c p
      = List.foldl (step cfg (count_draws (p ++ (nm, Command.GOTOPOS) :: rest) c.is_down))
          (mkState c) p := rfl
  rw [hP] at herr hstk
  rw [hrw, hP, List.foldl_append, List.foldl_cons]
  have hstep : step cfg (count_draws (p ++ (nm, Command.GOTOPOS) :: rest) c.is_down)
      (List.foldl (step cfg (count_draws (p ++ (nm, Command.GOTOPOS) :: rest) c.is_down))
        (mkState c) p) (nm, Command.GOTOPOS)
      = { List.foldl (step cfg (count_draws (p ++ (nm, Command.GOTOPOS) :: rest) c.is_down))
            (mkState c) p
          with err := some RunError.stackUnderflow } := by
    simp [step, herr, hstk]
  rw [hstep]
  exact foldl_step_frozen cfg _ rest _ (by simp)

theorem claim_C2_witness :
    run_system_value ⟨10, 1, 1, [(255, 255, 255)]⟩
        [(']', Command.GOTOPOS)] (mkState ⟨0, 0, 0, true⟩)
      = { runUpTo ⟨10, 1, 1, [(255, 255, 255)]⟩
            [(']', Command.GOTOPOS)] ⟨0, 0, 0, true⟩ []
          with err := some RunError.stackUnderflow } :=
  claim_C2 ⟨10, 1, 1, [(255, 255, 255)]⟩ [] [] ']' ⟨0, 0, 0, true⟩ rfl rfl

end LSystem

namespace LSystem

/-- Claim C1 is false of the code: `StorePosition` appends the live
cursor object itself (a reference, not a copy) to `saved_cursors`, so
the later in-place `move_forward` also moves the stored stack entry,
and `GotoStoredPosition` restores the cursor to its already-moved
position.  Concretely, from (0, 0), angle 0, pen-up, movement length
10: after `[StorePosition, MoveForward]` the stack holds a reference to
the live cursor and that entry's x is already 10 (it was 0 at push
time); the full run `[StorePosition, MoveForward, GotoStoredPosition]`
completes with the cursor at (10, 0), not at the (0, 0) it occupied
when StorePosition executed. -/
theorem claim_C1_code_bug :
    (run_system_value ⟨10, 1, 1, [(255, 255, 255)]⟩
        [('[', Command.STOREPOS), ('F', Command.MOVEFORWARD)]
        (mkState ⟨0, 0, 0, false⟩)).savedRefs = [0] ∧
    ((run_system_value ⟨10, 1, 1, [(255, 255, 255)]⟩
        [('[', Command.STOREPOS), ('F', Command.MOVEFORWARD)]
        (mkState ⟨0, 0, 0, false⟩)).heap 0).x = 10 ∧
    (run_system_value ⟨10, 1, 1, [(255, 255, 255)]⟩
        [('[', Command.STOREPOS), ('F', Command.MOVEFORWARD), (']', Command.GOTOPOS)]
        (mkState ⟨0, 0, 0, false⟩)).err = none ∧
    (run_system_value ⟨10, 1, 1, [(255, 255, 255)]⟩
        [('[', Command.STOREPOS), ('F', Command.MOVEFORWARD), (']', Command.GOTOPOS)]
        (mkState ⟨0, 0, 0, false⟩)).live.x = 10 ∧
    (run_system_value ⟨10, 1, 1, [(255, 255, 255)]⟩
        [('[', Command.STOREPOS), ('F', Command.MOVEFORWARD), (']', Command.GOTOPOS)]
        (mkState ⟨0, 0, 0, false⟩)).live.y = 0 := by
  refine ⟨?_, ?_, ?_, ?_, ?_⟩ <;>
    simp [run_system_value, count_draws, countDrawsLoop, step, mkState,
      RunState.live, RunState.setLive, Cursor.move_forward, Function.update_same]

end LSystem
